import Mathlib

/-!
# Verification of the video-to-bounded-audio transcoding pipeline

Shallow embedding of `src/video_processing.py` (functions
`ensure_directories`, `video_to_audio`, `process_videos_in_directory`).

State lives entirely on the filesystem, so the embedding threads an
explicit filesystem (the set of existing regular files) through each
operation.  The behaviour of the external media libraries (`moviepy`'s
`VideoFileClip` and `pydub`'s `AudioSegment`) and of the fallible OS
calls (`os.makedirs`, `os.remove`) is captured by an oracle record
`VideoEnv`: one Boolean per operation that can raise, plus the measured
size and duration of the extracted audio.  Each run also produces an
event trace recording which decode/encode/filesystem operations were
performed, so that "no re-decode", "the codec is not re-invoked",
"the intermediate path is never touched" become statements about the
trace.

Python exceptions that are caught inside `video_to_audio` turn into a
`none` result; exceptions that escape it (nothing in the source catches
a failure of `os.makedirs` at line 15-16 or of `os.remove` at line 76)
surface as `Except.error`.
-/

set_option autoImplicit false

namespace VideoProc

/-! ## Python path primitives

`os.path.basename`, `os.path.splitext` (its root component) and
`os.path.join` for POSIX paths, and `str.lower` / `str.endswith`,
modelled on character lists. -/

/-- ASCII lowering, as applied by `str.lower` to the file names used here. -/
def pyLowerChar (c : Char) : Char :=
  if 'A' ≤ c ∧ c ≤ 'Z' then Char.ofNat (c.toNat + 32) else c

/-- `str.lower`. -/
def pyLower (s : String) : String :=
  String.mk (s.data.map pyLowerChar)

/-- `s.endswith(suffix)`: the last `suffix.length` characters of `s` equal `suffix`. -/
def pyEndsWith (s suffix : String) : Bool :=
  s.data.reverse.take suffix.data.length == suffix.data.reverse

/-- `os.path.basename`: everything after the last `'/'`. -/
def basename (s : String) : String :=
  String.mk ((s.data.reverse.takeWhile (fun c => c != '/')).reverse)

/-- The root component of `os.path.splitext` applied to a name with no `'/'`:
drop the extension starting at the last dot, except when every character
before that dot is itself a dot (leading dots do not start an extension).
`s.data.reverse.dropWhile (· != '.')` is empty iff `s` has no dot, and
otherwise is the last dot followed by the reversed stem. -/
def splitextRoot (s : String) : String :=
  if s.data.reverse.dropWhile (fun c => c != '.') = [] then s
  else if ((s.data.reverse.dropWhile (fun c => c != '.')).tail.all (fun c => c == '.')) then s
  else String.mk ((s.data.reverse.dropWhile (fun c => c != '.')).tail.reverse)

/-- `os.path.join` for two POSIX components. -/
def pathJoin (d f : String) : String :=
  if f.data.head? = some '/' then f
  else if d = "" then f
  else if d.data.getLast? = some '/' then d ++ f
  else d ++ "/" ++ f

/-- Python `int()` on a rational value: truncation toward zero. -/
def pyInt (q : ℚ) : ℤ :=
  if 0 ≤ q then ⌊q⌋ else ⌈q⌉

/-! ## Filesystem model

The set of regular files that exist, as a duplicate-free list of paths. -/

/-- The filesystem: the list of paths of existing regular files. -/
abbrev FS := List String

/-- `os.path.isfile` (also `os.path.exists` for the file paths used here). -/
def FS.isfile (fs : FS) (p : String) : Bool := fs.contains p

/-- Creating (or overwriting) the file at `p`. -/
def FS.add (fs : FS) (p : String) : FS :=
  if fs.contains p then fs else p :: fs

/-- `os.remove p`. -/
def FS.remove (fs : FS) (p : String) : FS :=
  fs.filter (fun q => q != p)

/-! ## Oracle for the external libraries and fallible OS calls -/

/-- Exceptions that `video_to_audio` does not catch. -/
inductive PyExn where
  /-- `os.makedirs` raised inside `ensure_directories` (line 15-16). -/
  | mkdirError
  /-- `os.remove` raised inside the `finally` block (line 76). -/
  | removeError
  deriving DecidableEq, Repr

/-- Behaviour of the external media libraries and OS calls for one
`video_to_audio` call on one video. -/
structure VideoEnv where
  /-- `os.makedirs` (line 15-16) raises. -/
  makedirsFails : Bool
  /-- `VideoFileClip(video_path)` (line 47) raises: missing or undecodable input. -/
  openFails : Bool
  /-- `video.audio` (line 48) is truthy: the container has an audio track. -/
  hasAudio : Bool
  /-- `video.audio.write_audiofile(temp_audio)` (line 51) raises. -/
  writeFails : Bool
  /-- when `write_audiofile` raises, whether a (partial) `temp_audio` file
  had already been created before the exception. -/
  writeCreatesFile : Bool
  /-- `video.close()` (line 52) raises, after the intermediate was written. -/
  closeFails : Bool
  /-- `os.path.getsize(temp_audio) / (1024*1024)` (line 60), in MB. -/
  wavSizeMB : ℚ
  /-- `len(audio)` (line 66): duration of the extracted audio in milliseconds. -/
  durationMs : ℕ
  /-- `AudioSegment.from_file(temp_audio)` (line 59) raises. -/
  fromFileFails : Bool
  /-- `audio.export(final_audio, ...)` (line 63 or 69) raises. -/
  exportFails : Bool
  /-- `os.remove(temp_audio)` (line 76) raises. -/
  removeFails : Bool
  deriving DecidableEq, Repr

/-- Events recorded while a run executes. -/
inductive Event where
  /-- the Batch Driver invokes the Transcoder on this path (line 103). -/
  | invoke (path : String)
  /-- `VideoFileClip(video_path)` (line 47): the decode of the input starts. -/
  | openVideo (path : String)
  /-- `write_audiofile` (line 51): the intermediate WAV is written. -/
  | writeWav (path : String)
  /-- `AudioSegment.from_file` (line 59): the intermediate WAV is read back. -/
  | readWav (path : String)
  /-- `audio.export` (line 63/69): the final MP3 is encoded at `bitrate` kbps. -/
  | exportMp3 (path : String) (bitrate : ℕ)
  /-- `os.remove` (line 76). -/
  | removeFile (path : String)
  deriving DecidableEq, Repr

instance {ε α : Type} [DecidableEq ε] [DecidableEq α] : DecidableEq (Except ε α)
  | .error e, .error f =>
    if h : e = f then isTrue (by rw [h])
    else isFalse (fun g => h (Except.error.inj g))
  | .error _, .ok _ => isFalse (fun g => Except.noConfusion g)
  | .ok _, .error _ => isFalse (fun g => Except.noConfusion g)
  | .ok a, .ok b =>
    if h : a = b then isTrue (by rw [h])
    else isFalse (fun g => h (Except.ok.inj g))

/-- Result of one `video_to_audio` call: the Python return value (`none`
models Python's `None`; `Except.error` an uncaught exception), the
filesystem after the call, and the event trace. -/
structure TResult where
  result : Except PyExn (Option String)
  fs : FS
  trace : List Event
  deriving DecidableEq, Repr

/-! ## `ensure_directories` (lines 5-18) -/

/-- `ensure_directories`: create `output/audio` and `output/analysis` and
return the pair.  `os.makedirs` is outside every `try` block, so its
failure propagates. -/
def ensure_directories (makedirsFails : Bool) : Except PyExn (String × String) :=
  if makedirsFails then .error .mkdirError
  else .ok ("output/audio", "output/analysis")

/-! ## `video_to_audio` (lines 21-78) -/

/-- Line 36: `base_name = os.path.splitext(os.path.basename(video_path))[0]`. -/
def base_name (video_path : String) : String :=
  splitextRoot (basename video_path)

/-- Line 37: `temp_audio = os.path.join(audio_dir, f"{base_name}_temp.wav")`. -/
def tempPath (video_path : String) : String :=
  pathJoin "output/audio" (base_name video_path ++ "_temp.wav")

/-- Line 38: `final_audio = os.path.join(audio_dir, f"{base_name}.mp3")`. -/
def finalPath (video_path : String) : String :=
  pathJoin "output/audio" (base_name video_path ++ ".mp3")

/-- Lines 66-68: the bitrate (kbps) chosen when the intermediate exceeds the
size limit: `max(32, min(192, int((max_size_mb * 8192) / (len(audio)/1000))))`. -/
def chosen_bitrate (max_size_mb : ℚ) (durationMs : ℕ) : ℤ :=
  max 32 (min 192 (pyInt ((max_size_mb * 8192) / ((durationMs : ℚ) / 1000))))

/-- Lines 58-72, the body of the second `try` block: read the WAV back,
measure it, pick a bitrate, export the MP3.  Returns the value the `try`
body produces (`none` when it raises and the `except` arm returns `None`;
note the `finally` cleanup is applied by the caller), the filesystem, and
the events.  A zero duration makes `len(audio)/1000` zero and the division
at line 67 raise `ZeroDivisionError`, which the `except` arm catches. -/
def encodeStage (env : VideoEnv) (fs : FS) (temp final : String) (max_size_mb : ℚ) :
    Option String × FS × List Event :=
  if env.fromFileFails then (none, fs, [])
  else if env.wavSizeMB ≤ max_size_mb then
    if env.exportFails then (none, fs, [.readWav temp])
    else (some final, fs.add final, [.readWav temp, .exportMp3 final 192])
  else if env.durationMs = 0 then (none, fs, [.readWav temp])
  else if env.exportFails then (none, fs, [.readWav temp])
  else (some final, fs.add final,
        [.readWav temp, .exportMp3 final (chosen_bitrate max_size_mb env.durationMs).toNat])

/-- Lines 73-76, the `finally` block: `if os.path.exists(temp_audio):
os.remove(temp_audio)`.  A failing `os.remove` replaces the pending
return value with the exception. -/
def cleanupStage (env : VideoEnv) (res : Option String) (fs : FS) (temp : String)
    (tr : List Event) : TResult :=
  if fs.isfile temp then
    if env.removeFails then ⟨.error .removeError, fs, tr⟩
    else ⟨.ok res, fs.remove temp, tr ++ [.removeFile temp]⟩
  else ⟨.ok res, fs, tr⟩

/-- `video_to_audio(video_path, max_size_mb=15)` (lines 21-78). -/
def video_to_audio (env : VideoEnv) (fs : FS) (video_path : String) (max_size_mb : ℚ) :
    TResult :=
  match ensure_directories env.makedirsFails with
  | .error e => ⟨.error e, fs, []⟩
  | .ok _ =>
    let temp_audio := tempPath video_path
    let final_audio := finalPath video_path
    -- line 41: if os.path.isfile(final_audio): return final_audio
    if fs.isfile final_audio then ⟨.ok (some final_audio), fs, []⟩
    -- lines 46-55: first try block (extraction); its except arm returns None
    -- with no cleanup
    else if env.openFails then ⟨.ok none, fs, [.openVideo video_path]⟩
    else if !env.hasAudio then ⟨.ok none, fs, [.openVideo video_path]⟩
    else if env.writeFails then
      ⟨.ok none, if env.writeCreatesFile then fs.add temp_audio else fs,
        [.openVideo video_path, .writeWav temp_audio]⟩
    else if env.closeFails then
      ⟨.ok none, fs.add temp_audio, [.openVideo video_path, .writeWav temp_audio]⟩
    else
      -- lines 58-76: second try block with finally cleanup
      let r := encodeStage env (fs.add temp_audio) temp_audio final_audio max_size_mb
      cleanupStage env r.1 r.2.1 temp_audio
        ([.openVideo video_path, .writeWav temp_audio] ++ r.2.2)

/-! ## `process_videos_in_directory` (lines 81-110) -/

/-- Line 92: `video_extensions = ('.mp4', '.avi', '.mov', '.mkv')`, tested at
line 100 by `filename.lower().endswith(video_extensions)`. -/
def hasVideoExt (filename : String) : Bool :=
  [".mp4", ".avi", ".mov", ".mkv"].any (fun ext => pyEndsWith (pyLower filename) ext)

/-- Whether the directory exists, and its entries in the order `os.listdir`
returns them. -/
structure DirEnv where
  isdir : Bool
  entries : List String
  deriving Repr

/-- Lines 99-108: the `for` loop.  Each matching entry gets an `invoke`
event, then `video_to_audio` runs with the default `max_size_mb=15`; a
`some` result is appended, a `none` result is logged and skipped, and an
uncaught exception aborts the loop (nothing in the driver catches it). -/
def processLoop (venv : String → VideoEnv) (directory : String) :
    List String → FS → Except PyExn (List String) × FS × List Event
  | [], fs => (.ok [], fs, [])
  | filename :: rest, fs =>
    if hasVideoExt filename then
      let video_path := pathJoin directory filename
      let r := video_to_audio (venv video_path) fs video_path 15
      match r.result with
      | .error e => (.error e, r.fs, .invoke video_path :: r.trace)
      | .ok none =>
        let rst := processLoop venv directory rest r.fs
        (rst.1, rst.2.1, .invoke video_path :: r.trace ++ rst.2.2)
      | .ok (some p) =>
        let rst := processLoop venv directory rest r.fs
        (Except.map (fun l => p :: l) rst.1, rst.2.1, .invoke video_path :: r.trace ++ rst.2.2)
    else processLoop venv directory rest fs

/-- Result of one `process_videos_in_directory` call. -/
structure BResult where
  result : Except PyExn (List String)
  fs : FS
  trace : List Event
  deriving DecidableEq, Repr

/-- `process_videos_in_directory(directory)` (lines 81-110). -/
def process_videos_in_directory (venv : String → VideoEnv) (dirEnv : DirEnv)
    (directory : String) (fs : FS) : BResult :=
  if !dirEnv.isdir then ⟨.ok [], fs, []⟩
  else
    let r := processLoop venv directory dirEnv.entries fs
    ⟨r.1, r.2.1, r.2.2⟩

/-- Stated from the spec's words (§4.2, §7): process every matching entry in
enumeration order, never aborting on a per-file failure, and collect exactly
the successful audio paths, in order, with failed entries absent.  To be
compared with `processLoop`, which aborts if an exception escapes the
Transcoder. -/
def successfulPathsInOrder (venv : String → VideoEnv) (directory : String) :
    List String → FS → List String × FS
  | [], fs => ([], fs)
  | filename :: rest, fs =>
    if hasVideoExt filename then
      let video_path := pathJoin directory filename
      let r := video_to_audio (venv video_path) fs video_path 15
      match r.result with
      | .ok (some p) =>
        let rst := successfulPathsInOrder venv directory rest r.fs
        (p :: rst.1, rst.2)
      | _ => successfulPathsInOrder venv directory rest r.fs
    else successfulPathsInOrder venv directory rest fs

/-- The subsequence of Transcoder invocations recorded in a trace. -/
def invokedPaths (tr : List Event) : List String :=
  tr.filterMap (fun e => match e with | .invoke p => some p | _ => none)

/-! ## Concrete oracle environments for the closed statements -/

/-- A fully well-behaved run: audio track present, all library calls succeed,
1 MB intermediate, 60 s duration. -/
def envGood : VideoEnv :=
  { makedirsFails := false, openFails := false, hasAudio := true,
    writeFails := false, writeCreatesFile := false, closeFails := false,
    wavSizeMB := 1, durationMs := 60000, fromFileFails := false,
    exportFails := false, removeFails := false }

/-- As `envGood`, but `video.close()` raises after the WAV was written. -/
def envCloseFail : VideoEnv := { envGood with closeFails := true }

/-- As `envGood`, but `VideoFileClip` raises (missing or corrupt input). -/
def envOpenFail : VideoEnv := { envGood with openFails := true }

/-- As `envGood`, but the container has no audio track. -/
def envNoAudio : VideoEnv := { envGood with hasAudio := false }

/-- As `envGood`, but `os.makedirs` raises. -/
def envMkdirFail : VideoEnv := { envGood with makedirsFails := true }

/-- As `envGood`, but the cleanup `os.remove` raises. -/
def envRemoveFail : VideoEnv := { envGood with removeFails := true }

/-- As `envGood`, but `audio.export` raises. -/
def envExportFail : VideoEnv := { envGood with exportFails := true }

/-- As `envGood`, but with a 20 MB intermediate of duration 1000 s, which
exceeds the default 15 MB limit. -/
def envBig : VideoEnv := { envGood with wavSizeMB := 20, durationMs := 1000000 }

/-- A directory in which `videos/bad.mp4` is corrupt and everything else is
well-behaved. -/
def venvOneBad : String → VideoEnv :=
  fun p => if p = "videos/bad.mp4" then envOpenFail else envGood

/-! ## Basic facts about the path primitives and the filesystem model -/

theorem data_mk (l : List Char) : (String.mk l).data = l := rfl

theorem data_append (a b : String) : (a ++ b).data = a.data ++ b.data := by
  cases a; cases b; rfl

theorem mem_of_mem_dropWhile {α : Type} (p : α → Bool) :
    ∀ {l : List α} {a : α}, a ∈ l.dropWhile p → a ∈ l := by
  intro l
  induction l with
  | nil => intro a h; exact absurd h (by simp [List.dropWhile])
  | cons x xs ih =>
    intro a h
    rw [List.dropWhile] at h
    by_cases hx : p x = true
    · simp only [hx] at h
      exact List.mem_cons_of_mem x (ih h)
    · simp only [Bool.not_eq_true] at hx
      simp only [hx] at h
      exact h

theorem takeWhile_all_append {α : Type} (p : α → Bool) :
    ∀ (l₁ l₂ : List α), (∀ a ∈ l₁, p a = true) →
      (l₁ ++ l₂).takeWhile p = l₁ ++ l₂.takeWhile p := by
  intro l₁
  induction l₁ with
  | nil => intro l₂ _; rfl
  | cons x xs ih =>
    intro l₂ h
    have hx := h x (List.mem_cons_self x xs)
    simp [List.takeWhile_cons, hx, ih l₂ (fun a ha => h a (List.mem_cons_of_mem x ha))]

theorem takeWhile_all_eq_self {α : Type} (p : α → Bool) (l : List α)
    (h : ∀ a ∈ l, p a = true) : l.takeWhile p = l := by
  have := takeWhile_all_append p l [] h
  simpa using this

theorem dropWhile_all_append {α : Type} (p : α → Bool) :
    ∀ (l₁ l₂ : List α), (∀ a ∈ l₁, p a = true) →
      (l₁ ++ l₂).dropWhile p = l₂.dropWhile p := by
  intro l₁
  induction l₁ with
  | nil => intro l₂ _; rfl
  | cons x xs ih =>
    intro l₂ h
    rw [List.cons_append, List.dropWhile_cons_of_pos (h x (List.mem_cons_self x xs)),
      ih l₂ (fun a ha => h a (List.mem_cons_of_mem x ha))]

/-- Every character of `basename s` is a character of `s` that is not `'/'`. -/
theorem basename_no_slash (s : String) : ∀ c ∈ (basename s).data, c ≠ '/' := by
  intro c hc
  rw [basename, data_mk, List.mem_reverse] at hc
  have := List.mem_takeWhile_imp hc
  simpa using this

/-- Every character of `splitextRoot s` is a character of `s`. -/
theorem mem_splitextRoot (s : String) :
    ∀ c ∈ (splitextRoot s).data, c ∈ s.data := by
  intro c hc
  rw [splitextRoot] at hc
  split at hc
  · exact hc
  · split at hc
    · exact hc
    · rw [data_mk, List.mem_reverse] at hc
      have htail : c ∈ (s.data.reverse.dropWhile (fun c => c != '.')).tail := hc
      have hmem : c ∈ s.data.reverse.dropWhile (fun c => c != '.') :=
        List.mem_of_mem_tail htail
      exact List.mem_reverse.mp (mem_of_mem_dropWhile _ hmem)

/-- `base_name` never contains a `'/'`. -/
theorem base_name_no_slash (p : String) : ∀ c ∈ (base_name p).data, c ≠ '/' := by
  intro c hc
  exact basename_no_slash p c (mem_splitextRoot (basename p) c hc)

/-- `os.path.basename` of a join is the joined component, when that component
contains no separator. -/
theorem basename_pathJoin (d f : String) (hf : ∀ c ∈ f.data, c ≠ '/') :
    basename (pathJoin d f) = f := by
  have hrev : ∀ c ∈ f.data.reverse, (fun c => c != '/') c = true := by
    intro c hc
    simpa using hf c (List.mem_reverse.mp hc)
  have hbase : ∀ (t : List Char),
      basename (String.mk (t ++ '/' :: f.data)) = f := by
    intro t
    rw [basename, data_mk, List.reverse_append, List.reverse_cons, List.append_assoc,
      takeWhile_all_append _ _ _ hrev]
    simp [List.takeWhile_cons]
  have hself : basename f = f := by
    rw [basename]
    rw [takeWhile_all_eq_self _ _ hrev, List.reverse_reverse]
  have h1 : ¬ f.data.head? = some '/' := by
    intro h
    rcases hd : f.data with - | ⟨c, cs⟩
    · rw [hd] at h; cases h
    · rw [hd] at h
      have hc : c = '/' := by simpa using h
      exact hf c (by rw [hd]; exact List.mem_cons_self c cs) (by rw [hc])
  rw [pathJoin, if_neg h1]
  by_cases h2 : d = ""
  · rw [if_pos h2]; exact hself
  · rw [if_neg h2]
    by_cases h3 : d.data.getLast? = some '/'
    · rw [if_pos h3]
      rcases List.eq_nil_or_concat d.data with hnil | ⟨t, c, htc⟩
      · rw [hnil] at h3; cases h3
      · have hc : c = '/' := by
          rw [htc] at h3
          simpa [List.getLast?_concat] using h3
        have hdf : d ++ f = String.mk (t ++ '/' :: f.data) := by
          apply congrArg String.mk
          show d.data ++ f.data = t ++ '/' :: f.data
          rw [htc, hc]
          simp [List.concat_eq_append, List.append_assoc]
        rw [hdf]; exact hbase t
    · rw [if_neg h3]
      have hdf : d ++ "/" ++ f = String.mk (d.data ++ '/' :: f.data) := by
        apply congrArg String.mk
        show (d ++ "/").data ++ f.data = d.data ++ '/' :: f.data
        rw [data_append]
        simp
      rw [hdf]; exact hbase d.data

/-- `splitextRoot` strips exactly the appended extension `"." ++ e` when `e`
is dot-free and the stem contains a character other than `'.'`. -/
theorem splitextRoot_append_ext (b e : String)
    (hb : b.data.all (fun c => c == '.') = false)
    (he : ∀ c ∈ e.data, c ≠ '.') :
    splitextRoot (String.mk (b.data ++ '.' :: e.data)) = b := by
  have herev : ∀ c ∈ e.data.reverse, (fun c => c != '.') c = true := by
    intro c hc
    simpa using he c (List.mem_reverse.mp hc)
  have hdrop : (String.mk (b.data ++ '.' :: e.data)).data.reverse.dropWhile
      (fun c => c != '.') = '.' :: b.data.reverse := by
    rw [data_mk, List.reverse_append, List.reverse_cons, List.append_assoc,
      dropWhile_all_append _ _ _ herev, List.singleton_append,
      List.dropWhile_cons_of_neg (by simp)]
  rw [splitextRoot, hdrop]
  rw [if_neg (by intro h; cases h)]
  have htail : ('.' :: b.data.reverse).tail = b.data.reverse := rfl
  rw [htail, List.all_reverse, if_neg (by rw [hb]; intro h; cases h)]
  apply congrArg String.mk
  exact List.reverse_reverse _

/-! ## Filesystem lemmas -/

theorem isfile_iff_mem (fs : FS) (p : String) : fs.isfile p = true ↔ p ∈ fs := by
  simp [FS.isfile, List.contains, List.elem_eq_mem]

theorem isfile_add_self (fs : FS) (p : String) : (fs.add p).isfile p = true := by
  rw [FS.add]
  split
  · assumption
  · exact (isfile_iff_mem _ _).mpr (List.mem_cons_self p fs)

theorem isfile_add_of_isfile {fs : FS} {p : String} (q : String)
    (h : fs.isfile p = true) : (fs.add q).isfile p = true := by
  rw [FS.add]
  split
  · exact h
  · exact (isfile_iff_mem _ _).mpr (List.mem_cons_of_mem q ((isfile_iff_mem _ _).mp h))

theorem isfile_remove_self (fs : FS) (p : String) : (fs.remove p).isfile p = false := by
  rw [Bool.eq_false_iff]
  intro h
  have hmem := (isfile_iff_mem _ _).mp h
  have := (List.mem_filter.mp hmem).2
  simp at this

theorem isfile_remove_of_ne {p q : String} (fs : FS) (h : p ≠ q) :
    (fs.remove q).isfile p = fs.isfile p := by
  rw [Bool.eq_iff_iff, isfile_iff_mem, isfile_iff_mem, FS.remove]
  constructor
  · intro hmem; exact (List.mem_filter.mp hmem).1
  · intro hmem; exact List.mem_filter.mpr ⟨hmem, by simp [h]⟩

/-! ## The derived output paths are distinct -/

theorem head?_ne_slash {l : List Char} (h : ∀ c ∈ l, c ≠ '/') :
    ¬ l.head? = some '/' := by
  intro hh
  rcases hd : l with - | ⟨c, cs⟩
  · rw [hd] at hh; cases hh
  · rw [hd] at hh
    exact h c (by rw [hd]; exact List.mem_cons_self c cs) (by simpa using hh)

theorem no_slash_append {b suf : List Char} (hb : ∀ c ∈ b, c ≠ '/')
    (hs : ∀ c ∈ suf, c ≠ '/') : ∀ c ∈ b ++ suf, c ≠ '/' := by
  intro c hc
  rcases List.mem_append.mp hc with h | h
  · exact hb c h
  · exact hs c h

/-- `pathJoin "output/audio" x` for a component not starting with `'/'`. -/
theorem pathJoin_audio (x : String) (hx : ¬ x.data.head? = some '/') :
    pathJoin "output/audio" x = "output/audio" ++ "/" ++ x := by
  rw [pathJoin, if_neg hx, if_neg (by decide), if_neg (by decide)]

theorem pathJoin_audio_inj {x y : String} (hx : ¬ x.data.head? = some '/')
    (hy : ¬ y.data.head? = some '/')
    (h : pathJoin "output/audio" x = pathJoin "output/audio" y) : x = y := by
  rw [pathJoin_audio x hx, pathJoin_audio y hy] at h
  have hdata := congrArg String.data h
  rw [data_append, data_append, data_append, data_append, List.append_assoc,
    List.append_assoc] at hdata
  have := List.append_cancel_left (List.append_cancel_left hdata)
  cases x; cases y
  exact congrArg String.mk this

theorem base_name_head_ne_slash (p : String) (suf : String)
    (hs : ∀ c ∈ suf.data, c ≠ '/') :
    ¬ (base_name p ++ suf).data.head? = some '/' := by
  rw [data_append]
  exact head?_ne_slash (no_slash_append (base_name_no_slash p) hs)

/-- The final MP3 path and the intermediate WAV path of a video never coincide. -/
theorem finalPath_ne_tempPath (p : String) : finalPath p ≠ tempPath p := by
  intro h
  rw [finalPath, tempPath] at h
  have := pathJoin_audio_inj
    (base_name_head_ne_slash p ".mp3" (by decide))
    (base_name_head_ne_slash p "_temp.wav" (by decide)) h
  have hdata := congrArg String.data this
  rw [data_append, data_append] at hdata
  have := List.append_cancel_left hdata
  exact absurd this (by decide)

/-! ## Reduction lemmas: one per control path of `video_to_audio` -/

theorem video_to_audio_mkdir_fail (env : VideoEnv) (fs : FS) (video_path : String)
    (m : ℚ) (hmk : env.makedirsFails = true) :
    video_to_audio env fs video_path m = ⟨.error .mkdirError, fs, []⟩ := by
  simp [video_to_audio, ensure_directories, hmk]

theorem video_to_audio_cache_hit (env : VideoEnv) (fs : FS) (video_path : String)
    (m : ℚ) (hmk : env.makedirsFails = false)
    (hit : fs.isfile (finalPath video_path) = true) :
    video_to_audio env fs video_path m = ⟨.ok (some (finalPath video_path)), fs, []⟩ := by
  simp [video_to_audio, ensure_directories, hmk, hit]

theorem video_to_audio_open_fail (env : VideoEnv) (fs : FS) (video_path : String)
    (m : ℚ) (hmk : env.makedirsFails = false)
    (hmiss : fs.isfile (finalPath video_path) = false)
    (hopen : env.openFails = true) :
    video_to_audio env fs video_path m = ⟨.ok none, fs, [.openVideo video_path]⟩ := by
  simp [video_to_audio, ensure_directories, hmk, hmiss, hopen]

theorem video_to_audio_no_audio (env : VideoEnv) (fs : FS) (video_path : String)
    (m : ℚ) (hmk : env.makedirsFails = false)
    (hmiss : fs.isfile (finalPath video_path) = false)
    (hopen : env.openFails = false) (hau : env.hasAudio = false) :
    video_to_audio env fs video_path m = ⟨.ok none, fs, [.openVideo video_path]⟩ := by
  simp [video_to_audio, ensure_directories, hmk, hmiss, hopen, hau]

theorem video_to_audio_write_fail (env : VideoEnv) (fs : FS) (video_path : String)
    (m : ℚ) (hmk : env.makedirsFails = false)
    (hmiss : fs.isfile (finalPath video_path) = false)
    (hopen : env.openFails = false) (hau : env.hasAudio = true)
    (hw : env.writeFails = true) :
    video_to_audio env fs video_path m =
      ⟨.ok none, if env.writeCreatesFile then fs.add (tempPath video_path) else fs,
        [.openVideo video_path, .writeWav (tempPath video_path)]⟩ := by
  simp [video_to_audio, ensure_directories, hmk, hmiss, hopen, hau, hw]

theorem video_to_audio_close_fail (env : VideoEnv) (fs : FS) (video_path : String)
    (m : ℚ) (hmk : env.makedirsFails = false)
    (hmiss : fs.isfile (finalPath video_path) = false)
    (hopen : env.openFails = false) (hau : env.hasAudio = true)
    (hw : env.writeFails = false) (hc : env.closeFails = true) :
    video_to_audio env fs video_path m =
      ⟨.ok none, fs.add (tempPath video_path),
        [.openVideo video_path, .writeWav (tempPath video_path)]⟩ := by
  simp [video_to_audio, ensure_directories, hmk, hmiss, hopen, hau, hw, hc]

theorem video_to_audio_encode_reached (env : VideoEnv) (fs : FS) (video_path : String)
    (m : ℚ) (hmk : env.makedirsFails = false)
    (hmiss : fs.isfile (finalPath video_path) = false)
    (hopen : env.openFails = false) (hau : env.hasAudio = true)
    (hw : env.writeFails = false) (hc : env.closeFails = false) :
    video_to_audio env fs video_path m =
      cleanupStage env
        (encodeStage env (fs.add (tempPath video_path)) (tempPath video_path)
          (finalPath video_path) m).1
        (encodeStage env (fs.add (tempPath video_path)) (tempPath video_path)
          (finalPath video_path) m).2.1
        (tempPath video_path)
        ([.openVideo video_path, .writeWav (tempPath video_path)] ++
          (encodeStage env (fs.add (tempPath video_path)) (tempPath video_path)
            (finalPath video_path) m).2.2) := by
  simp [video_to_audio, ensure_directories, hmk, hmiss, hopen, hau, hw, hc]

theorem encodeStage_small (env : VideoEnv) (fs : FS) (temp final : String) (m : ℚ)
    (hff : env.fromFileFails = false) (hsize : env.wavSizeMB ≤ m)
    (hex : env.exportFails = false) :
    encodeStage env fs temp final m =
      (some final, fs.add final, [.readWav temp, .exportMp3 final 192]) := by
  simp [encodeStage, hff, hsize, hex]

theorem encodeStage_exceed (env : VideoEnv) (fs : FS) (temp final : String) (m : ℚ)
    (hff : env.fromFileFails = false) (hsize : ¬ env.wavSizeMB ≤ m)
    (hdur : env.durationMs ≠ 0) (hex : env.exportFails = false) :
    encodeStage env fs temp final m =
      (some final, fs.add final,
        [.readWav temp, .exportMp3 final (chosen_bitrate m env.durationMs).toNat]) := by
  simp [encodeStage, hff, hsize, hdur, hex]

theorem encodeStage_some {env : VideoEnv} {fs : FS} {temp final : String} {m : ℚ}
    {q : String} (h : (encodeStage env fs temp final m).1 = some q) :
    q = final ∧ (encodeStage env fs temp final m).2.1 = fs.add final := by
  unfold encodeStage at h ⊢
  split_ifs at h ⊢ <;> simp_all

theorem cleanupStage_removes (env : VideoEnv) (res : Option String) (fs : FS)
    (temp : String) (tr : List Event) (htemp : fs.isfile temp = true)
    (hrm : env.removeFails = false) :
    cleanupStage env res fs temp tr = ⟨.ok res, fs.remove temp, tr ++ [.removeFile temp]⟩ := by
  simp [cleanupStage, htemp, hrm]

theorem cleanupStage_ok (env : VideoEnv) (res : Option String) (fs : FS)
    (temp : String) (tr : List Event) (hrm : env.removeFails = false) :
    (cleanupStage env res fs temp tr).result = .ok res := by
  rw [cleanupStage]
  by_cases h : fs.isfile temp = true
  · rw [if_pos h, if_neg (by rw [hrm]; exact Bool.false_ne_true)]
  · rw [if_neg h]

/-- When `os.makedirs` and `os.remove` do not fail, every failure inside
`video_to_audio` is caught and converted into a returned value. -/
theorem video_to_audio_no_error (env : VideoEnv) (fs : FS) (video_path : String) (m : ℚ)
    (hmk : env.makedirsFails = false) (hrm : env.removeFails = false) :
    ∃ r, (video_to_audio env fs video_path m).result = .ok r := by
  by_cases hit : fs.isfile (finalPath video_path) = true
  · exact ⟨some (finalPath video_path),
      by rw [video_to_audio_cache_hit env fs video_path m hmk hit]⟩
  · have hmiss : fs.isfile (finalPath video_path) = false := by simpa using hit
    by_cases hopen : env.openFails = true
    · exact ⟨none, by rw [video_to_audio_open_fail env fs video_path m hmk hmiss hopen]⟩
    · have hopen' : env.openFails = false := by simpa using hopen
      by_cases hau : env.hasAudio = true
      case neg =>
        have hau' : env.hasAudio = false := by simpa using hau
        exact ⟨none, by rw [video_to_audio_no_audio env fs video_path m hmk hmiss hopen' hau']⟩
      case pos =>
        by_cases hw : env.writeFails = true
        · exact ⟨none,
            by rw [video_to_audio_write_fail env fs video_path m hmk hmiss hopen' hau hw]⟩
        · have hw' : env.writeFails = false := by simpa using hw
          by_cases hc : env.closeFails = true
          · exact ⟨none,
              by rw [video_to_audio_close_fail env fs video_path m hmk hmiss hopen' hau hw' hc]⟩
          · have hc' : env.closeFails = false := by simpa using hc
            rw [video_to_audio_encode_reached env fs video_path m hmk hmiss hopen' hau hw' hc']
            exact ⟨_, cleanupStage_ok env _ _ _ _ hrm⟩

/-- A call that returns a path returns the derived final path, and leaves that
final file on disk. -/
theorem video_to_audio_success {env : VideoEnv} {fs : FS} {video_path : String} {m : ℚ}
    {q : String} (hmk : env.makedirsFails = false)
    (h : (video_to_audio env fs video_path m).result = .ok (some q)) :
    q = finalPath video_path ∧
    (video_to_audio env fs video_path m).fs.isfile (finalPath video_path) = true := by
  by_cases hit : fs.isfile (finalPath video_path) = true
  · rw [video_to_audio_cache_hit env fs video_path m hmk hit] at h ⊢
    exact ⟨(Option.some.inj (Except.ok.inj h)).symm, hit⟩
  · have hmiss : fs.isfile (finalPath video_path) = false := by simpa using hit
    by_cases hopen : env.openFails = true
    · rw [video_to_audio_open_fail env fs video_path m hmk hmiss hopen] at h
      simp at h
    · have hopen' : env.openFails = false := by simpa using hopen
      by_cases hau : env.hasAudio = true
      case neg =>
        have hau' : env.hasAudio = false := by simpa using hau
        rw [video_to_audio_no_audio env fs video_path m hmk hmiss hopen' hau'] at h
        simp at h
      case pos =>
        by_cases hw : env.writeFails = true
        · rw [video_to_audio_write_fail env fs video_path m hmk hmiss hopen' hau hw] at h
          simp at h
        · have hw' : env.writeFails = false := by simpa using hw
          by_cases hc : env.closeFails = true
          · rw [video_to_audio_close_fail env fs video_path m hmk hmiss hopen' hau hw' hc] at h
            simp at h
          · have hc' : env.closeFails = false := by simpa using hc
            rw [video_to_audio_encode_reached env fs video_path m hmk hmiss hopen' hau hw' hc']
              at h ⊢
            rw [cleanupStage] at h ⊢
            by_cases htemp : (encodeStage env (fs.add (tempPath video_path))
                (tempPath video_path) (finalPath video_path) m).2.1.isfile
                (tempPath video_path) = true
            · rw [if_pos htemp] at h ⊢
              by_cases hrm : env.removeFails = true
              · rw [if_pos hrm] at h; simp at h
              · have hrm' : env.removeFails = false := by simpa using hrm
                rw [if_neg (by rw [hrm']; exact Bool.false_ne_true)] at h ⊢
                have hq : (encodeStage env (fs.add (tempPath video_path))
                    (tempPath video_path) (finalPath video_path) m).1 = some q :=
                  Except.ok.inj h
                obtain ⟨hqf, hfs⟩ := encodeStage_some hq
                refine ⟨hqf, ?_⟩
                rw [hfs, isfile_remove_of_ne _ (finalPath_ne_tempPath video_path)]
                exact isfile_add_self _ _
            · rw [if_neg htemp] at h ⊢
              have hq : (encodeStage env (fs.add (tempPath video_path))
                  (tempPath video_path) (finalPath video_path) m).1 = some q :=
                Except.ok.inj h
              obtain ⟨hqf, hfs⟩ := encodeStage_some hq
              refine ⟨hqf, ?_⟩
              rw [hfs]
              exact isfile_add_self _ _

/-! ## Batch-level reference semantics and trace projections -/

theorem invokedPaths_nil : invokedPaths [] = [] := rfl

theorem invokedPaths_append (a b : List Event) :
    invokedPaths (a ++ b) = invokedPaths a ++ invokedPaths b := by
  simp [invokedPaths]

theorem invokedPaths_encodeStage (env : VideoEnv) (fs : FS) (temp final : String)
    (m : ℚ) : invokedPaths (encodeStage env fs temp final m).2.2 = [] := by
  unfold encodeStage
  split_ifs <;> simp [invokedPaths]

/-- The Transcoder itself never records an invocation event: those belong to
the Batch Driver. -/
theorem invokedPaths_video_to_audio (env : VideoEnv) (fs : FS) (video_path : String)
    (m : ℚ) : invokedPaths (video_to_audio env fs video_path m).trace = [] := by
  by_cases hmk : env.makedirsFails = true
  · rw [video_to_audio_mkdir_fail env fs video_path m hmk]; rfl
  · have hmk' : env.makedirsFails = false := by simpa using hmk
    by_cases hit : fs.isfile (finalPath video_path) = true
    · rw [video_to_audio_cache_hit env fs video_path m hmk' hit]; rfl
    · have hmiss : fs.isfile (finalPath video_path) = false := by simpa using hit
      by_cases hopen : env.openFails = true
      · rw [video_to_audio_open_fail env fs video_path m hmk' hmiss hopen]; rfl
      · have hopen' : env.openFails = false := by simpa using hopen
        by_cases hau : env.hasAudio = true
        case neg =>
          have hau' : env.hasAudio = false := by simpa using hau
          rw [video_to_audio_no_audio env fs video_path m hmk' hmiss hopen' hau']; rfl
        case pos =>
          by_cases hw : env.writeFails = true
          · rw [video_to_audio_write_fail env fs video_path m hmk' hmiss hopen' hau hw]; rfl
          · have hw' : env.writeFails = false := by simpa using hw
            by_cases hc : env.closeFails = true
            · rw [video_to_audio_close_fail env fs video_path m hmk' hmiss hopen' hau hw' hc]
              rfl
            · have hc' : env.closeFails = false := by simpa using hc
              rw [video_to_audio_encode_reached env fs video_path m hmk' hmiss hopen' hau hw' hc']
              rw [cleanupStage]
              split_ifs
              · dsimp only
                rw [invokedPaths_append, invokedPaths_encodeStage]
                rfl
              · dsimp only
                rw [invokedPaths_append, invokedPaths_append, invokedPaths_encodeStage]
                rfl
              · dsimp only
                rw [invokedPaths_append, invokedPaths_encodeStage]
                rfl

/-- `processLoop` refines the never-aborting reference fold whenever no
uncaught exception can escape a Transcoder call. -/
theorem processLoop_ok (venv : String → VideoEnv) (directory : String) :
    ∀ (entries : List String) (fs : FS),
      (∀ f ∈ entries, (venv (pathJoin directory f)).makedirsFails = false ∧
        (venv (pathJoin directory f)).removeFails = false) →
      (processLoop venv directory entries fs).1 =
        .ok (successfulPathsInOrder venv directory entries fs).1 ∧
      (processLoop venv directory entries fs).2.1 =
        (successfulPathsInOrder venv directory entries fs).2 := by
  intro entries
  induction entries with
  | nil => intro fs _; exact ⟨rfl, rfl⟩
  | cons f rest ih =>
    intro fs h
    obtain ⟨hmk, hrm⟩ := h f (List.mem_cons_self f rest)
    have hrest := fun g hg => h g (List.mem_cons_of_mem f hg)
    by_cases hext : hasVideoExt f = true
    · obtain ⟨r0, hr0⟩ := video_to_audio_no_error (venv (pathJoin directory f)) fs
        (pathJoin directory f) 15 hmk hrm
      rcases r0 with - | p
      · simp only [processLoop, successfulPathsInOrder, hext, if_true, hr0]
        exact ih _ hrest
      · simp only [processLoop, successfulPathsInOrder, hext, if_true, hr0]
        obtain ⟨h1, h2⟩ := ih _ hrest
        rw [h1, h2]
        exact ⟨rfl, rfl⟩
    · simp only [processLoop, successfulPathsInOrder, hext, if_false]
      exact ih fs hrest

/-- Non-matching entries are skipped with no effect at all: the loop behaves
exactly as if they were not present. -/
theorem processLoop_filter (venv : String → VideoEnv) (directory : String) :
    ∀ (entries : List String) (fs : FS),
      processLoop venv directory entries fs =
        processLoop venv directory (entries.filter hasVideoExt) fs := by
  intro entries
  induction entries with
  | nil => intro fs; rfl
  | cons f rest ih =>
    intro fs
    by_cases hext : hasVideoExt f = true
    · rw [List.filter_cons_of_pos hext]
      simp only [processLoop, hext, if_true]
      cases hres : (video_to_audio (venv (pathJoin directory f)) fs
          (pathJoin directory f) 15).result with
      | error e => rfl
      | ok o => cases o <;> simp [ih]
    · rw [List.filter_cons_of_neg (by simpa using hext)]
      simp only [processLoop, hext, if_false]
      exact ih fs

/-- The invocations the loop performs are exactly the matching entries, in
order, joined to the directory. -/
theorem processLoop_invoked (venv : String → VideoEnv) (directory : String) :
    ∀ (entries : List String) (fs : FS),
      (∀ f ∈ entries, (venv (pathJoin directory f)).makedirsFails = false ∧
        (venv (pathJoin directory f)).removeFails = false) →
      invokedPaths (processLoop venv directory entries fs).2.2 =
        (entries.filter hasVideoExt).map (fun f => pathJoin directory f) := by
  intro entries
  induction entries with
  | nil => intro fs _; rfl
  | cons f rest ih =>
    intro fs h
    obtain ⟨hmk, hrm⟩ := h f (List.mem_cons_self f rest)
    have hrest := fun g hg => h g (List.mem_cons_of_mem f hg)
    by_cases hext : hasVideoExt f = true
    · obtain ⟨r0, hr0⟩ := video_to_audio_no_error (venv (pathJoin directory f)) fs
        (pathJoin directory f) 15 hmk hrm
      rw [List.filter_cons_of_pos hext]
      rcases r0 with - | p <;>
        · simp only [processLoop, hext, if_true, hr0, List.map_cons]
          rw [show ∀ (a : Event) (t : List Event), a :: t = [a] ++ t from fun a t => rfl]
          rw [invokedPaths_append, invokedPaths_append, invokedPaths_video_to_audio,
            ih _ hrest]
          rfl
    · rw [List.filter_cons_of_neg (by simpa using hext)]
      simp only [processLoop, hext, if_false]
      exact ih fs hrest

/-! ## A fully successful small-size transcode, as one equation -/

theorem isfile_temp_after_add (fs : FS) (video_path : String) :
    ((fs.add (tempPath video_path)).add (finalPath video_path)).isfile
      (tempPath video_path) = true :=
  isfile_add_of_isfile _ (isfile_add_self _ _)

theorem video_to_audio_success_small (env : VideoEnv) (fs : FS) (video_path : String)
    (m : ℚ) (hmk : env.makedirsFails = false)
    (hmiss : fs.isfile (finalPath video_path) = false)
    (hopen : env.openFails = false) (hau : env.hasAudio = true)
    (hw : env.writeFails = false) (hc : env.closeFails = false)
    (hff : env.fromFileFails = false) (hex : env.exportFails = false)
    (hrm : env.removeFails = false) (hsize : env.wavSizeMB ≤ m) :
    video_to_audio env fs video_path m =
      ⟨.ok (some (finalPath video_path)),
       ((fs.add (tempPath video_path)).add (finalPath video_path)).remove
         (tempPath video_path),
       [.openVideo video_path, .writeWav (tempPath video_path),
        .readWav (tempPath video_path), .exportMp3 (finalPath video_path) 192,
        .removeFile (tempPath video_path)]⟩ := by
  rw [video_to_audio_encode_reached env fs video_path m hmk hmiss hopen hau hw hc,
    encodeStage_small env _ _ _ m hff hsize hex]
  rw [cleanupStage_removes env _ _ _ _ (isfile_temp_after_add fs video_path) hrm]
  rfl

/-! ## Extension matching for appended extensions -/

theorem pyEndsWith_append (b suf : String) : pyEndsWith (b ++ suf) suf = true := by
  rw [pyEndsWith, data_append, List.reverse_append,
    show suf.data.length = suf.data.reverse.length from (List.length_reverse _).symm,
    List.take_left]
  exact beq_self_eq_true _

theorem pyLower_append (a c : String) : pyLower (a ++ c) = pyLower a ++ pyLower c := by
  rw [pyLower, pyLower, pyLower, data_append, List.map_append]
  rfl

theorem hasVideoExt_append_mp4 (b : String) : hasVideoExt (b ++ ".mp4") = true := by
  have h1 : pyLower (b ++ ".mp4") = pyLower b ++ ".mp4" := by
    rw [pyLower_append, show pyLower ".mp4" = ".mp4" from by decide]
  simp [hasVideoExt, h1, pyEndsWith_append]

theorem hasVideoExt_append_mov (b : String) : hasVideoExt (b ++ ".mov") = true := by
  have h1 : pyLower (b ++ ".mov") = pyLower b ++ ".mov" := by
    rw [pyLower_append, show pyLower ".mov" = ".mov" from by decide]
  simp [hasVideoExt, h1, pyEndsWith_append]

/-! ## Base names of joined video paths -/

theorem append_right_ne (b : String) {x y : String} (h : x ≠ y) : b ++ x ≠ b ++ y := by
  intro he
  apply h
  have hd := congrArg String.data he
  rw [data_append, data_append] at hd
  have := List.append_cancel_left hd
  cases x; cases y
  exact congrArg String.mk this

theorem pathJoin_audio_ne {x y : String} (hx : ¬ x.data.head? = some '/')
    (hy : ¬ y.data.head? = some '/') (hne : x ≠ y) :
    pathJoin "output/audio" x ≠ pathJoin "output/audio" y :=
  fun h => hne (pathJoin_audio_inj hx hy h)

/-- The base name of `directory/<b>.<e>` is `b`, for a slash-free stem that is
not all dots and a slash-free dot-free extension. -/
theorem base_name_join (d b e : String)
    (hb1 : ∀ c ∈ b.data, c ≠ '/')
    (hb2 : b.data.all (fun c => c == '.') = false)
    (he1 : ∀ c ∈ e.data, c ≠ '/')
    (he2 : ∀ c ∈ e.data, c ≠ '.') :
    base_name (pathJoin d (b ++ String.mk ('.' :: e.data))) = b := by
  have hf : ∀ c ∈ (b ++ String.mk ('.' :: e.data)).data, c ≠ '/' := by
    intro c hc
    rw [data_append, data_mk] at hc
    rcases List.mem_append.mp hc with h | h
    · exact hb1 c h
    · rcases List.mem_cons.mp h with h | h
      · rw [h]; decide
      · exact he1 c h
  have hsplit : b ++ String.mk ('.' :: e.data) = String.mk (b.data ++ '.' :: e.data) := by
    cases b; rfl
  rw [base_name, basename_pathJoin _ _ hf, hsplit, splitextRoot_append_ext b e hb2 he2]

theorem base_name_join_mp4 (d b : String)
    (hb1 : ∀ c ∈ b.data, c ≠ '/')
    (hb2 : b.data.all (fun c => c == '.') = false) :
    base_name (pathJoin d (b ++ ".mp4")) = b := by
  have h : (".mp4" : String) = String.mk ('.' :: ("mp4" : String).data) := rfl
  rw [h, base_name_join d b "mp4" hb1 hb2 (by decide) (by decide)]

theorem base_name_join_mov (d b : String)
    (hb1 : ∀ c ∈ b.data, c ≠ '/')
    (hb2 : b.data.all (fun c => c == '.') = false) :
    base_name (pathJoin d (b ++ ".mov")) = b := by
  have h : (".mov" : String) = String.mk ('.' :: ("mov" : String).data) := rfl
  rw [h, base_name_join d b "mov" hb1 hb2 (by decide) (by decide)]

/-! ## Claim theorems -/

/-- C7: for every path that is not an existing directory,
`process_videos_in_directory` reports the invalid directory and returns the
empty sequence, invoking the Transcoder on nothing and changing nothing on
disk. -/
theorem invalid_directory_empty (venv : String → VideoEnv) (dirEnv : DirEnv)
    (directory : String) (fs : FS) (h : dirEnv.isdir = false) :
    process_videos_in_directory venv dirEnv directory fs = ⟨.ok [], fs, []⟩ := by
  simp [process_videos_in_directory, h]

theorem invalid_directory_empty_witness :
    (⟨false, ["a.mp4"]⟩ : DirEnv).isdir = false ∧
    process_videos_in_directory (fun _ => envGood) ⟨false, ["a.mp4"]⟩ "videos" [] =
      ⟨.ok [], [], []⟩ :=
  ⟨rfl, invalid_directory_empty (fun _ => envGood) ⟨false, ["a.mp4"]⟩ "videos" [] rfl⟩

/-- C3: `video_to_audio` is idempotent via an existence-only cache check:
when the derived final audio path already exists, the call returns it
immediately, with the filesystem untouched and an empty event trace (no
decode, no encode, no content or size validation, no touch of the
intermediate path); consequently, after any successful call, a repeated call
on the same video does the transcoding work zero additional times. -/
theorem idempotent_cache_check (env env₂ : VideoEnv) (fs : FS) (video_path : String)
    (m m₂ : ℚ) (hmk : env.makedirsFails = false) (hmk₂ : env₂.makedirsFails = false) :
    (fs.isfile (finalPath video_path) = true →
      video_to_audio env fs video_path m =
        ⟨.ok (some (finalPath video_path)), fs, []⟩) ∧
    (∀ q, (video_to_audio env fs video_path m).result = .ok (some q) →
      video_to_audio env₂ (video_to_audio env fs video_path m).fs video_path m₂ =
        ⟨.ok (some (finalPath video_path)),
         (video_to_audio env fs video_path m).fs, []⟩) := by
  refine ⟨fun hit => video_to_audio_cache_hit env fs video_path m hmk hit, ?_⟩
  intro q hq
  obtain ⟨-, hfs⟩ := video_to_audio_success hmk hq
  exact video_to_audio_cache_hit env₂ _ video_path m₂ hmk₂ hfs

theorem idempotent_cache_check_witness :
    envGood.makedirsFails = false ∧
    FS.isfile ["output/audio/v.mp3"] (finalPath "videos/v.mp4") = true ∧
    video_to_audio envGood ["output/audio/v.mp3"] "videos/v.mp4" 15 =
      ⟨.ok (some (finalPath "videos/v.mp4")), ["output/audio/v.mp3"], []⟩ ∧
    (video_to_audio envGood [] "videos/v.mp4" 15).result =
      .ok (some (finalPath "videos/v.mp4")) ∧
    video_to_audio envGood (video_to_audio envGood [] "videos/v.mp4" 15).fs
        "videos/v.mp4" 15 =
      ⟨.ok (some (finalPath "videos/v.mp4")),
       (video_to_audio envGood [] "videos/v.mp4" 15).fs, []⟩ :=
  ⟨rfl, by decide,
   (idempotent_cache_check envGood envGood ["output/audio/v.mp3"] "videos/v.mp4" 15 15
      rfl rfl).1 (by decide),
   by decide,
   (idempotent_cache_check envGood envGood [] "videos/v.mp4" 15 15 rfl rfl).2
     (finalPath "videos/v.mp4") (by decide)⟩

/-- C9: the cache check precedes all input validation: even when the video
path cannot be opened (`VideoFileClip` raises, as for a nonexistent or
unreadable file), a pre-existing `output/audio/<base>.mp3` is returned
successfully; the invalid-input failure can only occur when no cached
artifact exists for that base name. -/
theorem cache_precedes_validation (env : VideoEnv) (fs : FS) (video_path : String)
    (m : ℚ) (hmk : env.makedirsFails = false) (hopen : env.openFails = true) :
    (fs.isfile (finalPath video_path) = true →
      video_to_audio env fs video_path m =
        ⟨.ok (some (finalPath video_path)), fs, []⟩) ∧
    (fs.isfile (finalPath video_path) = false →
      video_to_audio env fs video_path m = ⟨.ok none, fs, [.openVideo video_path]⟩) :=
  ⟨fun hit => video_to_audio_cache_hit env fs video_path m hmk hit,
   fun hmiss => video_to_audio_open_fail env fs video_path m hmk hmiss hopen⟩

theorem cache_precedes_validation_witness :
    envOpenFail.makedirsFails = false ∧ envOpenFail.openFails = true ∧
    FS.isfile ["output/audio/v.mp3"] (finalPath "videos/v.mp4") = true ∧
    video_to_audio envOpenFail ["output/audio/v.mp3"] "videos/v.mp4" 15 =
      ⟨.ok (some (finalPath "videos/v.mp4")), ["output/audio/v.mp3"], []⟩ :=
  ⟨rfl, rfl, by decide,
   (cache_precedes_validation envOpenFail ["output/audio/v.mp3"] "videos/v.mp4" 15
      rfl rfl).1 (by decide)⟩

/-- C5: with no cached final file, a video without an audio track makes
`video_to_audio` return the failure outcome with the filesystem unchanged —
so neither an intermediate nor a final artifact is left behind — and the
intermediate is never created: the only recorded event is opening the
container. -/
theorem no_audio_track_clean (env : VideoEnv) (fs : FS) (video_path : String) (m : ℚ)
    (hmk : env.makedirsFails = false)
    (hmiss : fs.isfile (finalPath video_path) = false)
    (hopen : env.openFails = false) (hau : env.hasAudio = false) :
    video_to_audio env fs video_path m = ⟨.ok none, fs, [.openVideo video_path]⟩ ∧
    (video_to_audio env fs video_path m).fs.isfile (finalPath video_path) = false ∧
    (fs.isfile (tempPath video_path) = false →
      (video_to_audio env fs video_path m).fs.isfile (tempPath video_path) = false) := by
  have h := video_to_audio_no_audio env fs video_path m hmk hmiss hopen hau
  exact ⟨h, by rw [h]; exact hmiss, fun ht => by rw [h]; exact ht⟩

theorem no_audio_track_clean_witness :
    (FS.isfile [] (finalPath "videos/v.mp4") = false) ∧
    (video_to_audio envNoAudio [] "videos/v.mp4" 15 =
      ⟨.ok none, [], [.openVideo "videos/v.mp4"]⟩ ∧
     (video_to_audio envNoAudio [] "videos/v.mp4" 15).fs.isfile
        (finalPath "videos/v.mp4") = false ∧
     (FS.isfile [] (tempPath "videos/v.mp4") = false →
       (video_to_audio envNoAudio [] "videos/v.mp4" 15).fs.isfile
         (tempPath "videos/v.mp4") = false)) :=
  ⟨by decide,
   no_audio_track_clean envNoAudio [] "videos/v.mp4" 15 rfl (by decide) rfl rfl⟩

/-- C1 counterexample: a call in which the intermediate WAV was created
(`write_audiofile` succeeded, as the trace records) and `video.close()` then
raised — an extraction-stage failure after the intermediate was written.
The call returns (`None`), yet the intermediate file is still present: the
first `try`'s `except` arm (lines 53-55) returns without any cleanup, so the
claimed on-every-exit-path guarantee is false. -/
theorem cleanup_on_all_paths_counterexample :
    (video_to_audio envCloseFail [] "videos/v.mp4" 15).result = .ok none ∧
    Event.writeWav (tempPath "videos/v.mp4") ∈
      (video_to_audio envCloseFail [] "videos/v.mp4" 15).trace ∧
    (video_to_audio envCloseFail [] "videos/v.mp4" 15).fs.isfile
      (tempPath "videos/v.mp4") = true := by
  decide

/-- C1 amended: the guaranteed cleanup (`finally`, lines 73-76) covers the
success path and every failure during the re-encode stage: whenever
extraction completes (so the intermediate was created and control reached
the second `try` block), the intermediate file is absent by the time the
call returns and the call returns a value rather than raising.  Extraction
stage failures occurring after the intermediate was written (`write_audiofile`
or `close` raising) are not covered — see the counterexample. -/
theorem cleanup_after_encode_stage (env : VideoEnv) (fs : FS) (video_path : String)
    (m : ℚ) (hmk : env.makedirsFails = false)
    (hmiss : fs.isfile (finalPath video_path) = false)
    (hopen : env.openFails = false) (hau : env.hasAudio = true)
    (hw : env.writeFails = false) (hc : env.closeFails = false)
    (hrm : env.removeFails = false) :
    (∃ r, (video_to_audio env fs video_path m).result = .ok r) ∧
    (video_to_audio env fs video_path m).fs.isfile (tempPath video_path) = false := by
  rw [video_to_audio_encode_reached env fs video_path m hmk hmiss hopen hau hw hc]
  rw [cleanupStage]
  by_cases htemp : (encodeStage env (fs.add (tempPath video_path)) (tempPath video_path)
      (finalPath video_path) m).2.1.isfile (tempPath video_path) = true
  · rw [if_pos htemp, if_neg (by rw [hrm]; exact Bool.false_ne_true)]
    exact ⟨⟨_, rfl⟩, isfile_remove_self _ _⟩
  · rw [if_neg htemp]
    exact ⟨⟨_, rfl⟩, by simpa using htemp⟩

theorem cleanup_after_encode_stage_witness :
    (FS.isfile [] (finalPath "videos/v.mp4") = false) ∧
    ((∃ r, (video_to_audio envExportFail [] "videos/v.mp4" 15).result = .ok r) ∧
     (video_to_audio envExportFail [] "videos/v.mp4" 15).fs.isfile
       (tempPath "videos/v.mp4") = false) :=
  ⟨by decide,
   cleanup_after_encode_stage envExportFail [] "videos/v.mp4" 15 rfl (by decide)
     rfl rfl rfl rfl rfl⟩

/-- C8 counterexample: exceptions do escape the Transcoder boundary: a
failing `os.makedirs` inside `ensure_directories` (line 33 runs before any
`try`) propagates, and a failing cleanup `os.remove` propagates out of the
`finally` block; in both runs the result is an uncaught exception rather
than a reported outcome. -/
theorem propagation_policy_counterexample :
    (video_to_audio envMkdirFail [] "videos/v.mp4" 15).result =
      .error .mkdirError ∧
    (video_to_audio envRemoveFail [] "videos/v.mp4" 15).result =
      .error .removeError := by
  decide

/-- C8 amended: every failure of the extraction and re-encode stages (open,
no-audio, `write_audiofile`, `close`, `from_file`, `export`, zero duration)
is caught at the Transcoder boundary and converted into a returned outcome;
only a failing `os.makedirs` (directory setup) or a failing cleanup
`os.remove` propagates to the Batch Driver. -/
theorem transcoder_catches_stage_failures (env : VideoEnv) (fs : FS)
    (video_path : String) (m : ℚ) (hmk : env.makedirsFails = false)
    (hrm : env.removeFails = false) :
    ∃ r, (video_to_audio env fs video_path m).result = .ok r :=
  video_to_audio_no_error env fs video_path m hmk hrm

theorem transcoder_catches_stage_failures_witness :
    envExportFail.makedirsFails = false ∧ envExportFail.removeFails = false ∧
    ∃ r, (video_to_audio envExportFail [] "videos/v.mp4" 15).result = .ok r :=
  ⟨rfl, rfl,
   transcoder_catches_stage_failures envExportFail [] "videos/v.mp4" 15 rfl rfl⟩

/-- C2: for every transcode in which the final file does not already exist
and both stages succeed: if the measured intermediate size in MB is within
`max_size_mb`, the export bitrate is the fixed 192 kbps; otherwise, with
`D = durationMs / 1000` the audio duration in seconds, the chosen bitrate
equals `clamp(32, 192, ⌊max_size_mb * 8192 / D⌋)` kbps — clamped to 192 for
very small `D` and to 32 for very large `D` by the `max 32 (min 192 ·)`. -/
theorem bitrate_selection (env : VideoEnv) (fs : FS) (video_path : String) (m : ℚ)
    (hmk : env.makedirsFails = false)
    (hmiss : fs.isfile (finalPath video_path) = false)
    (hopen : env.openFails = false) (hau : env.hasAudio = true)
    (hw : env.writeFails = false) (hc : env.closeFails = false)
    (hff : env.fromFileFails = false) (hex : env.exportFails = false)
    (hrm : env.removeFails = false) (hm : 0 < m) :
    (env.wavSizeMB ≤ m →
      (video_to_audio env fs video_path m).trace =
        [.openVideo video_path, .writeWav (tempPath video_path),
         .readWav (tempPath video_path), .exportMp3 (finalPath video_path) 192,
         .removeFile (tempPath video_path)]) ∧
    (¬ env.wavSizeMB ≤ m → env.durationMs ≠ 0 →
      (video_to_audio env fs video_path m).trace =
        [.openVideo video_path, .writeWav (tempPath video_path),
         .readWav (tempPath video_path),
         .exportMp3 (finalPath video_path)
           (Int.toNat (max 32 (min 192 ⌊m * 8192 / ((env.durationMs : ℚ) / 1000)⌋))),
         .removeFile (tempPath video_path)]) := by
  constructor
  · intro hsize
    rw [video_to_audio_success_small env fs video_path m hmk hmiss hopen hau hw hc hff
      hex hrm hsize]
  · intro hsize hdur
    rw [video_to_audio_encode_reached env fs video_path m hmk hmiss hopen hau hw hc,
      encodeStage_exceed env _ _ _ m hff hsize hdur hex]
    rw [cleanupStage_removes env _ _ _ _ (isfile_temp_after_add fs video_path) hrm]
    have hq : (0:ℚ) ≤ m * 8192 / ((env.durationMs : ℚ) / 1000) := by
      apply le_of_lt
      apply div_pos (mul_pos hm (by norm_num))
      apply div_pos _ (by norm_num)
      exact_mod_cast Nat.pos_of_ne_zero hdur
    rw [show chosen_bitrate m env.durationMs =
        max 32 (min 192 ⌊m * 8192 / ((env.durationMs : ℚ) / 1000)⌋) from by
      rw [chosen_bitrate, pyInt, if_pos hq]]
    rfl

theorem bitrate_selection_witness :
    (0:ℚ) < 15 ∧ FS.isfile [] (finalPath "videos/v.mp4") = false ∧
    ¬ envBig.wavSizeMB ≤ (15:ℚ) ∧ envBig.durationMs ≠ 0 ∧
    (video_to_audio envBig [] "videos/v.mp4" 15).trace =
      [.openVideo "videos/v.mp4", .writeWav (tempPath "videos/v.mp4"),
       .readWav (tempPath "videos/v.mp4"),
       .exportMp3 (finalPath "videos/v.mp4")
         (Int.toNat (max 32 (min 192
           ⌊(15:ℚ) * 8192 / ((envBig.durationMs : ℚ) / 1000)⌋))),
       .removeFile (tempPath "videos/v.mp4")] :=
  ⟨by norm_num, by decide, by decide, by decide,
   (bitrate_selection envBig [] "videos/v.mp4" 15 rfl (by decide) rfl rfl rfl rfl rfl
      rfl rfl (by norm_num)).2 (by decide) (by decide)⟩

/-- C4: with a valid directory and `os.makedirs`/`os.remove` behaving, the
batch processes the matching entries in enumeration order, a Transcoder
failure on one file never aborts the batch, and the returned sequence is
exactly the successful audio paths in enumeration order with the failed
entries absent (`successfulPathsInOrder` is that never-aborting reference
collection). -/
theorem batch_failure_isolation (venv : String → VideoEnv) (dirEnv : DirEnv)
    (directory : String) (fs : FS) (hd : dirEnv.isdir = true)
    (hok : ∀ f ∈ dirEnv.entries,
      (venv (pathJoin directory f)).makedirsFails = false ∧
      (venv (pathJoin directory f)).removeFails = false) :
    (process_videos_in_directory venv dirEnv directory fs).result =
      .ok (successfulPathsInOrder venv directory dirEnv.entries fs).1 := by
  have h := (processLoop_ok venv directory dirEnv.entries fs hok).1
  simp only [process_videos_in_directory, hd, Bool.not_true, Bool.false_eq_true,
    if_false]
  exact h

theorem batch_failure_isolation_witness :
    (⟨true, ["v1.mp4", "bad.mp4", "v2.mov", "notes.txt", "v3.MKV"]⟩ : DirEnv).isdir
      = true ∧
    (∀ f ∈ ["v1.mp4", "bad.mp4", "v2.mov", "notes.txt", "v3.MKV"],
      (venvOneBad (pathJoin "videos" f)).makedirsFails = false ∧
      (venvOneBad (pathJoin "videos" f)).removeFails = false) ∧
    (process_videos_in_directory venvOneBad
        ⟨true, ["v1.mp4", "bad.mp4", "v2.mov", "notes.txt", "v3.MKV"]⟩
        "videos" []).result =
      .ok ["output/audio/v1.mp3", "output/audio/v2.mp3", "output/audio/v3.mp3"] :=
  ⟨rfl, by decide,
   (batch_failure_isolation venvOneBad
      ⟨true, ["v1.mp4", "bad.mp4", "v2.mov", "notes.txt", "v3.MKV"]⟩ "videos" []
      rfl (by decide)).trans (by decide)⟩

/-- C6: the Batch Driver selects exactly the directory entries whose names
end, case-insensitively, with one of `.mp4`, `.avi`, `.mov`, `.mkv`: the
Transcoder invocations are exactly the matching entries in enumeration
order; the selection predicate is that fixed four-extension test on the
lowered name; and the loop is unchanged by deleting the non-matching
entries, which therefore produce no side effects. -/
theorem extension_filtering (venv : String → VideoEnv) (dirEnv : DirEnv)
    (directory : String) (fs : FS) (hd : dirEnv.isdir = true)
    (hok : ∀ f ∈ dirEnv.entries,
      (venv (pathJoin directory f)).makedirsFails = false ∧
      (venv (pathJoin directory f)).removeFails = false) :
    invokedPaths (process_videos_in_directory venv dirEnv directory fs).trace =
      (dirEnv.entries.filter hasVideoExt).map (fun f => pathJoin directory f) ∧
    (∀ f : String, hasVideoExt f = true ↔
      (pyEndsWith (pyLower f) ".mp4" = true ∨ pyEndsWith (pyLower f) ".avi" = true ∨
       pyEndsWith (pyLower f) ".mov" = true ∨ pyEndsWith (pyLower f) ".mkv" = true)) ∧
    processLoop venv directory dirEnv.entries fs =
      processLoop venv directory (dirEnv.entries.filter hasVideoExt) fs := by
  refine ⟨?_, ?_, processLoop_filter venv directory dirEnv.entries fs⟩
  · have h := processLoop_invoked venv directory dirEnv.entries fs hok
    simp only [process_videos_in_directory, hd, Bool.not_true, Bool.false_eq_true,
      if_false]
    exact h
  · intro f
    simp [hasVideoExt]

theorem extension_filtering_witness :
    (⟨true, ["a.mp4", "b.txt", "c.MKV"]⟩ : DirEnv).isdir = true ∧
    (∀ f ∈ ["a.mp4", "b.txt", "c.MKV"],
      ((fun _ => envGood) (pathJoin "videos" f) : VideoEnv).makedirsFails = false ∧
      ((fun _ => envGood) (pathJoin "videos" f) : VideoEnv).removeFails = false) ∧
    invokedPaths (process_videos_in_directory (fun _ => envGood)
        ⟨true, ["a.mp4", "b.txt", "c.MKV"]⟩ "videos" []).trace =
      ["videos/a.mp4", "videos/c.MKV"] :=
  ⟨rfl, by decide,
   ((extension_filtering (fun _ => envGood) ⟨true, ["a.mp4", "b.txt", "c.MKV"]⟩
      "videos" [] rfl (by decide)).1).trans (by decide)⟩

/-- C10: output paths depend only on the video's base name, not its
extension: for a directory holding `<b>.mp4` and `<b>.mov`, both entries
derive the same final path `output/audio/<b>.mp3`; when the first entry
transcodes successfully, the second is a pure cache hit (its invocation is
the last recorded event, followed by no decode/encode work), and the batch
result contains the shared path twice. -/
theorem same_base_two_extensions (venv : String → VideoEnv) (dirEnv : DirEnv)
    (directory b : String) (fs : FS)
    (hb1 : ∀ c ∈ b.data, c ≠ '/')
    (hb2 : b.data.all (fun c => c == '.') = false)
    (hd : dirEnv.isdir = true)
    (hent : dirEnv.entries = [b ++ ".mp4", b ++ ".mov"])
    (hmiss : FS.isfile fs (pathJoin "output/audio" (b ++ ".mp3")) = false)
    (h1mk : (venv (pathJoin directory (b ++ ".mp4"))).makedirsFails = false)
    (h1op : (venv (pathJoin directory (b ++ ".mp4"))).openFails = false)
    (h1au : (venv (pathJoin directory (b ++ ".mp4"))).hasAudio = true)
    (h1w : (venv (pathJoin directory (b ++ ".mp4"))).writeFails = false)
    (h1c : (venv (pathJoin directory (b ++ ".mp4"))).closeFails = false)
    (h1ff : (venv (pathJoin directory (b ++ ".mp4"))).fromFileFails = false)
    (h1ex : (venv (pathJoin directory (b ++ ".mp4"))).exportFails = false)
    (h1rm : (venv (pathJoin directory (b ++ ".mp4"))).removeFails = false)
    (h1sz : (venv (pathJoin directory (b ++ ".mp4"))).wavSizeMB ≤ 15)
    (h2mk : (venv (pathJoin directory (b ++ ".mov"))).makedirsFails = false) :
    finalPath (pathJoin directory (b ++ ".mp4")) =
      pathJoin "output/audio" (b ++ ".mp3") ∧
    finalPath (pathJoin directory (b ++ ".mov")) =
      pathJoin "output/audio" (b ++ ".mp3") ∧
    (process_videos_in_directory venv dirEnv directory fs).result =
      .ok [pathJoin "output/audio" (b ++ ".mp3"),
           pathJoin "output/audio" (b ++ ".mp3")] ∧
    (process_videos_in_directory venv dirEnv directory fs).trace =
      [.invoke (pathJoin directory (b ++ ".mp4")),
       .openVideo (pathJoin directory (b ++ ".mp4")),
       .writeWav (pathJoin "output/audio" (b ++ "_temp.wav")),
       .readWav (pathJoin "output/audio" (b ++ "_temp.wav")),
       .exportMp3 (pathJoin "output/audio" (b ++ ".mp3")) 192,
       .removeFile (pathJoin "output/audio" (b ++ "_temp.wav")),
       .invoke (pathJoin directory (b ++ ".mov"))] := by
  have hbase1 : base_name (pathJoin directory (b ++ ".mp4")) = b :=
    base_name_join_mp4 directory b hb1 hb2
  have hbase2 : base_name (pathJoin directory (b ++ ".mov")) = b :=
    base_name_join_mov directory b hb1 hb2
  have hfin1 : finalPath (pathJoin directory (b ++ ".mp4")) =
      pathJoin "output/audio" (b ++ ".mp3") := by rw [finalPath, hbase1]
  have hfin2 : finalPath (pathJoin directory (b ++ ".mov")) =
      pathJoin "output/audio" (b ++ ".mp3") := by rw [finalPath, hbase2]
  have htmp1 : tempPath (pathJoin directory (b ++ ".mp4")) =
      pathJoin "output/audio" (b ++ "_temp.wav") := by rw [tempPath, hbase1]
  have hmiss1 : fs.isfile (finalPath (pathJoin directory (b ++ ".mp4"))) = false := by
    rw [hfin1]; exact hmiss
  have hrun1 := video_to_audio_success_small (venv (pathJoin directory (b ++ ".mp4")))
    fs (pathJoin directory (b ++ ".mp4")) 15 h1mk hmiss1 h1op h1au h1w h1c h1ff h1ex
    h1rm h1sz
  have hcached : FS.isfile
      (((fs.add (tempPath (pathJoin directory (b ++ ".mp4")))).add
        (finalPath (pathJoin directory (b ++ ".mp4")))).remove
        (tempPath (pathJoin directory (b ++ ".mp4"))))
      (finalPath (pathJoin directory (b ++ ".mov"))) = true := by
    rw [hfin2, ← hfin1,
      isfile_remove_of_ne _ (finalPath_ne_tempPath (pathJoin directory (b ++ ".mp4")))]
    exact isfile_add_self _ _
  have hrun2 := video_to_audio_cache_hit (venv (pathJoin directory (b ++ ".mov")))
    (((fs.add (tempPath (pathJoin directory (b ++ ".mp4")))).add
      (finalPath (pathJoin directory (b ++ ".mp4")))).remove
      (tempPath (pathJoin directory (b ++ ".mp4"))))
    (pathJoin directory (b ++ ".mov")) 15 h2mk hcached
  have hloop : processLoop venv directory [b ++ ".mp4", b ++ ".mov"] fs =
      (Except.ok [finalPath (pathJoin directory (b ++ ".mp4")),
                  finalPath (pathJoin directory (b ++ ".mov"))],
       ((fs.add (tempPath (pathJoin directory (b ++ ".mp4")))).add
         (finalPath (pathJoin directory (b ++ ".mp4")))).remove
         (tempPath (pathJoin directory (b ++ ".mp4"))),
       [.invoke (pathJoin directory (b ++ ".mp4")),
        .openVideo (pathJoin directory (b ++ ".mp4")),
        .writeWav (tempPath (pathJoin directory (b ++ ".mp4"))),
        .readWav (tempPath (pathJoin directory (b ++ ".mp4"))),
        .exportMp3 (finalPath (pathJoin directory (b ++ ".mp4"))) 192,
        .removeFile (tempPath (pathJoin directory (b ++ ".mp4"))),
        .invoke (pathJoin directory (b ++ ".mov"))]) := by
    simp only [processLoop, hasVideoExt_append_mp4, hasVideoExt_append_mov, if_true,
      hrun1, hrun2]
    rfl
  have hbatch : process_videos_in_directory venv dirEnv directory fs =
      ⟨Except.ok [finalPath (pathJoin directory (b ++ ".mp4")),
                  finalPath (pathJoin directory (b ++ ".mov"))],
       ((fs.add (tempPath (pathJoin directory (b ++ ".mp4")))).add
         (finalPath (pathJoin directory (b ++ ".mp4")))).remove
         (tempPath (pathJoin directory (b ++ ".mp4"))),
       [.invoke (pathJoin directory (b ++ ".mp4")),
        .openVideo (pathJoin directory (b ++ ".mp4")),
        .writeWav (tempPath (pathJoin directory (b ++ ".mp4"))),
        .readWav (tempPath (pathJoin directory (b ++ ".mp4"))),
        .exportMp3 (finalPath (pathJoin directory (b ++ ".mp4"))) 192,
        .removeFile (tempPath (pathJoin directory (b ++ ".mp4"))),
        .invoke (pathJoin directory (b ++ ".mov"))]⟩ := by
    rw [process_videos_in_directory, hent, if_neg (by simp [hd]), hloop]
  refine ⟨hfin1, hfin2, ?_, ?_⟩
  · rw [hbatch, hfin1, hfin2]
  · rw [hbatch, hfin1, htmp1]

theorem same_base_two_extensions_witness :
    (∀ c ∈ ("a" : String).data, c ≠ '/') ∧
    (("a" : String).data.all (fun c => c == '.') = false) ∧
    FS.isfile [] (pathJoin "output/audio" ("a" ++ ".mp3")) = false ∧
    envGood.wavSizeMB ≤ 15 ∧
    (process_videos_in_directory (fun _ => envGood)
        ⟨true, ["a" ++ ".mp4", "a" ++ ".mov"]⟩ "videos" []).result =
      .ok [pathJoin "output/audio" ("a" ++ ".mp3"),
           pathJoin "output/audio" ("a" ++ ".mp3")] :=
  ⟨by decide, by decide, by decide, by decide,
   (same_base_two_extensions (fun _ => envGood)
      ⟨true, ["a" ++ ".mp4", "a" ++ ".mov"]⟩ "videos" "a" [] (by decide) (by decide)
      rfl rfl (by decide) rfl rfl rfl rfl rfl rfl rfl rfl (by decide) rfl).2.2.1⟩

end VideoProc
